import Mathlib

/-!
Verification of the Organizer scheduling pipeline.

This file gives a shallow embedding of the scheduling core of the
Organizer repository:

* `Slot`, `Task`, `DaySlot`, `TaskEvent` mirror the data classes of
  `Interface/pages/databases` and `organizer.py`.
* The `PreProcessor` static methods (`compute_slots_minutes`,
  `compute_tasks_minutes`, `estimate_days_feasibility`,
  `find_free_spots`, `compute_margins`, `generate_days_slots`,
  `filter_events`) are translated into pure Lean functions.  All clock
  values are integer minutes: a `datetime.time` becomes its
  minutes-after-midnight, a `datetime.datetime` becomes absolute minutes
  (`day * 1440 + time-of-day`).  The sources only ever manipulate whole
  minutes, so this is a faithful granularity.
* The calendar `Querier` (`Calendar/queries.py`) acts on an explicit
  calendar state, a `List CalEvent`; the Google-service round trips
  become pure state transformers.
* The retry loop of `SolverSchedule.solve_problems` and the `while` loop
  of `estimate_days_feasibility` are embedded with an explicit fuel
  parameter; exhausting every fuel is the embedding of non-termination.
* `SolverOrganizer.solve` / `_find_segment_position` become
  `organizer_start` / `find_segment_position`; the latter is over `ℚ`
  because the Python code uses true division.
-/

namespace Organizer

/-- A work window template (`Slot` in `db_schedule.py`): times are
minutes after midnight (`start`, `endT` model the `start`/`end`
`datetime.time` fields). -/
structure Slot where
  id : Int
  type : String
  start : Int
  endT : Int
deriving DecidableEq

/-- Duration of a slot in minutes (`Slot.get_duration`, converted to
minutes the way the callers do: `int(total_seconds() / 60)`). -/
def Slot.get_duration (s : Slot) : Int :=
  s.endT - s.start

/-- A task (`Task` in `db_tasks.py`); `due_date` is kept abstract as an
integer day number, `estimated_time` is in minutes. -/
structure Task where
  id : Int
  name : String
  priority : Int
  status : String
  due_date : Int
  estimated_time : Int
  category : String
deriving DecidableEq

/-- A day slot (`DaySlot` in `organizer.py`): a day index together with
the concrete (event-subtracted) slot and its hard bounds.
`hard_start_time` / `hard_end_time` are absolute minutes. -/
structure DaySlot where
  day : Int
  slot : Slot
  hard_length : Int
  hard_start_time : Int
  hard_end_time : Int
deriving DecidableEq

/-- A task event (`TaskEvent` in `organizer.py`): a task with concrete
absolute start/end minutes. -/
structure TaskEvent where
  start : Int
  endT : Int
  task : Task
deriving DecidableEq

/-- An assignment of tasks to one day slot (`SlotAssignment`). -/
structure SlotAssignment where
  slot : DaySlot
  tasks : List Task
deriving DecidableEq

/-- An external calendar event as the Google API returns it: the fields
of the event dictionary that the source reads (`start`/`end` as absolute
minutes, the optional `colorId` tag, and the event id). -/
structure CalEvent where
  summary : String
  description : String
  start : Int
  endT : Int
  colorId : Option String
  eid : Nat
deriving DecidableEq

/-- `PreProcessor.APPLICATION_COLORS` (`organizer.py` line 64). -/
def APPLICATION_COLORS : List String := ["1", "2", "3", "4", "5"]

/-- The colour id the filter reads from an event:
`event.get("colorId", '-1')` (`organizer.py` line 299). -/
def get_color_id (e : CalEvent) : String :=
  e.colorId.getD "-1"

/-- `PreProcessor.filter_events` (`organizer.py` lines 289-306): keep
exactly the events whose colour id is not in `APPLICATION_COLORS`. -/
def filter_events (upcoming_events : List CalEvent) : List CalEvent :=
  upcoming_events.filter (fun e => !(APPLICATION_COLORS.contains (get_color_id e)))

/-- `Querier.set_event` (`Calendar/queries.py` lines 90-126) as a state
transformer on the calendar: it inserts an event built from the given
summary, description and times, always tagged with `colorId = '9'`
(line 121 of `queries.py`). -/
def set_event (cal : List CalEvent) (summary description : String)
    (start endT : Int) : List CalEvent :=
  cal ++ [⟨summary, description, start, endT, some "9", cal.length⟩]

/-- The event record `set_event` inserts (its body dictionary). -/
def set_event_record (summary description : String) (start endT : Int)
    (eid : Nat) : CalEvent :=
  ⟨summary, description, start, endT, some "9", eid⟩

/-- `SolverOrganizer.set_in_calendar` (`organizer.py` lines 677-692):
one `set_event` call per task event, with summary the task name and the
informational description string. -/
def set_in_calendar (cal : List CalEvent) (task_events : List TaskEvent) :
    List CalEvent :=
  task_events.foldl
    (fun c te =>
      set_event c te.task.name
        ("Estimated to last for " ++ toString te.task.estimated_time)
        te.start te.endT)
    cal

/-- Modelled from the spec: the calendar service's "list upcoming events
in a time range" operation used by `Querier.get_next_events`
(`Calendar/queries.py` lines 63-88).  The Google API call itself is not
part of this repository; per section 6 of the specification it returns
the events in the window `[now, now + days]`, which we take as the
events whose start lies in that range. `now` is in absolute minutes. -/
def get_next_events (now : Int) (days : Int) (cal : List CalEvent) :
    List CalEvent :=
  cal.filter (fun e => decide (now ≤ e.start) && decide (e.start ≤ now + days * 1440))

/-- `Querier.delete_events` (`Calendar/queries.py` lines 128-139) as a
state transformer: enumerate `get_next_events now 10` (the source uses
the default `days = 10`) and delete every enumerated event whose colour
id equals `'9'`. -/
def delete_events (now : Int) (cal : List CalEvent) : List CalEvent :=
  cal.filter (fun e =>
    !(decide (now ≤ e.start) && decide (e.start ≤ now + 10 * 1440) &&
      decide (get_color_id e = "9")))

/-- The user-owned part of a calendar: the events whose colour id is not
the application tag `'9'`. -/
def user_owned_events (cal : List CalEvent) : List CalEvent :=
  cal.filter (fun e => !(decide (get_color_id e = "9")))

/-- `PreProcessor.compute_slots_minutes` (`organizer.py` lines 66-78). -/
def compute_slots_minutes (slots : List Slot) : Int :=
  (slots.map (fun s => s.get_duration)).sum

/-- `PreProcessor.compute_tasks_minutes` (`organizer.py` lines 80-92). -/
def compute_tasks_minutes (tasks : List Task) : Int :=
  (tasks.map (fun t => t.estimated_time)).sum

/-- The `while` loop of `PreProcessor.estimate_days_feasibility`
(`organizer.py` lines 110-117) with explicit fuel: `slots_minutes` and
`day` are the loop variables; `none` means the fuel ran out before the
loop condition `slots_minutes < number_minutes_tasks` became false.  The
loop diverges on an input exactly when the result is `none` for every
fuel. -/
def estimate_days_loop (c m : Int) : Nat → Int → Int → Option Int
  | 0, slots_minutes, day =>
      if slots_minutes < m then none else some day
  | fuel + 1, slots_minutes, day =>
      if slots_minutes < m then
        estimate_days_loop c m fuel (slots_minutes + c) (day + 1)
      else
        some day

/-- `PreProcessor.estimate_days_feasibility` (`organizer.py` lines
94-117): starts with `day = 1` and `slots_minutes` equal to the total
slot capacity, and adds one day's capacity per iteration.  The fuel
`m.toNat` is sufficient whenever the capacity is positive. -/
def estimate_days_feasibility (slots : List Slot) (tasks : List Task) :
    Option Int :=
  let m := compute_tasks_minutes tasks
  let c := compute_slots_minutes slots
  estimate_days_loop c m m.toNat c 1

/-- One step of the interval subtraction in
`PreProcessor.find_free_spots` (`organizer.py` lines 272-284): the
pieces that one event `ev` leaves of one available interval `i`. -/
def subtract_pieces (ev : Int × Int) (i : Int × Int) : List (Int × Int) :=
  if ev.1 ≤ i.1 ∧ i.1 < ev.2 then
    [(ev.2, i.2)]
  else if ev.1 ≤ i.2 ∧ i.2 < ev.2 then
    [(i.1, ev.1)]
  else if i.1 < ev.1 ∧ ev.2 < i.2 then
    [(i.1, ev.1), (ev.2, i.2)]
  else
    [(i.1, i.2)]

/-- `PreProcessor.find_free_spots` (`organizer.py` lines 248-287): the
slot is made absolute on the given day, then every event is subtracted
in order from the list of available intervals. -/
def find_free_spots (slot : Slot) (events : List (Int × Int)) (day : Int) :
    List (Int × Int) :=
  events.foldl
    (fun available_intervals ev => available_intervals.flatMap (subtract_pieces ev))
    [(day * 1440 + slot.start, day * 1440 + slot.endT)]

/-- The fold of `organizer.py` lines 221-225 selecting the previous
event: among the events ending no later than `bound`, the one with the
greatest end (first such event wins ties). -/
def pick_previous_event (bound : Int) (events : List (Int × Int)) :
    Option (Int × Int) :=
  events.foldl
    (fun p ev =>
      if ev.2 ≤ bound then
        match p with
        | none => some ev
        | some q => if q.2 < ev.2 then some ev else some q
      else p)
    none

/-- The fold of `organizer.py` lines 234-238 selecting the next event:
among the events starting no earlier than `bound`, the one with the
least start (first such event wins ties). -/
def pick_next_event (bound : Int) (events : List (Int × Int)) :
    Option (Int × Int) :=
  events.foldl
    (fun p ev =>
      if bound ≤ ev.1 then
        match p with
        | none => some ev
        | some q => if ev.1 < q.1 then some ev else some q
      else p)
    none

/-- `PreProcessor.compute_margins` (`organizer.py` lines 200-246): the
distance from the slot start back to the previous event's end (or to
midnight of the slot's day when there is none) and from the slot end
forward to the next event's start (or to 23:59 of the day). -/
def compute_margins (slot : Slot) (events : List (Int × Int)) (day : Int) :
    Int × Int :=
  let slot_date := day * 1440
  let slot_start := slot_date + slot.start
  let slot_end := slot_date + slot.endT
  let start_margin :=
    match pick_previous_event slot_start events with
    | none => slot_start - slot_date
    | some q => slot_start - q.2
  let end_margin :=
    match pick_next_event slot_end events with
    | none => (slot_date + 1439) - slot_end
    | some q => q.1 - slot_end
  (start_margin, end_margin)

/-- Time-of-day of an absolute minute value, as Python's
`datetime.time()` extraction: the representative modulo one day. -/
def time_of_day (x : Int) : Int :=
  x % 1440

/-- The emission step of `PreProcessor.generate_days_slots`
(`organizer.py` lines 178-196): given one free spot, build the cleared
slot from its times of day, compute its margins and hard bounds, and
emit the `DaySlot`. -/
def make_day_slot (events : List (Int × Int)) (day : Int) (sid : Int)
    (spot : Int × Int) : DaySlot :=
  let clear_slot : Slot := ⟨sid, "Work", time_of_day spot.1, time_of_day spot.2⟩
  let margins := compute_margins clear_slot events day
  let hard_low := spot.1 - margins.1
  let hard_high := spot.2 + margins.2
  let slot_length := clear_slot.get_duration
  ⟨day, clear_slot, slot_length + margins.2 + margins.1, hard_low, hard_high⟩

/-- The per-day body of `PreProcessor.generate_days_slots`
(`organizer.py` lines 163-196): on day 0, templates already over at
`now_t` are skipped and templates already started are clipped to start
at `now_t`; then the free spots of the template are computed and each
becomes a `DaySlot`. -/
def slots_for_day (slots : List Slot) (events : List (Int × Int))
    (now_t : Int) (day : Nat) : List DaySlot :=
  slots.flatMap (fun slot =>
    if day = 0 ∧ slot.endT < now_t then
      []
    else
      (find_free_spots
          ⟨slot.id, "Work",
            if day = 0 ∧ slot.start < now_t then now_t else slot.start,
            slot.endT⟩
          events (day : Int)).map
        (make_day_slot events (day : Int) slot.id))

/-- `PreProcessor.generate_days_slots` (`organizer.py` lines 119-198)
with the calendar fetch replaced by an explicit list of (already
filtered and parsed) occupied times, and the wall clock
`datetime.datetime.now().time()` by the explicit `now_t` (minutes after
midnight). -/
def generate_days_slots (slots : List Slot) (events : List (Int × Int))
    (days : Nat) (now_t : Int) : List DaySlot :=
  (List.range days).flatMap (slots_for_day slots events now_t)

/-- Solver status as `cp_model` reports it. -/
inductive CpStatus where
  | optimal
  | feasible
  | infeasible
  | unknown
deriving DecidableEq

/-- The loop condition of `SolverSchedule.solve_problems`
(`organizer.py` line 378): the loop stops exactly on `FEASIBLE` or
`OPTIMAL`. -/
def is_success (s : CpStatus) : Bool :=
  match s with
  | CpStatus.optimal => true
  | CpStatus.feasible => true
  | _ => false

/-- The retry loop of `SolverSchedule.solve_problems` (`organizer.py`
lines 370-381) with explicit fuel.  `oracle d` is the status
`_solve_problem(d)` returns for a horizon of `d` days (the solve is
deterministic in its inputs, of which only the horizon changes across
iterations).  The loop tries `d0, d0 + 1, d0 + 2, ...` and stops at the
first success; `none` means the fuel ran out, and divergence is `none`
for every fuel. -/
def solve_problems_loop (oracle : Int → CpStatus) : Nat → Int → Option Int
  | 0, _ => none
  | fuel + 1, days =>
      if is_success (oracle days) then some days
      else solve_problems_loop oracle fuel (days + 1)

/-- The retry loop never finishes, whatever the fuel: the embedding of
non-termination of `solve_problems`. -/
def solve_loop_diverges (oracle : Int → CpStatus) (d0 : Int) : Prop :=
  ∀ fuel : Nat, solve_problems_loop oracle fuel d0 = none

/-- A solver oracle that never reaches a successful status. -/
def always_infeasible : Int → CpStatus :=
  fun _ => CpStatus.infeasible

/-- The oracle used to witness the retry-loop theorem: success exactly
at horizon 2. -/
def success_at_two : Int → CpStatus :=
  fun d => if d = 2 then CpStatus.optimal else CpStatus.infeasible

/-- The base value table of `SolverSchedule.define_values`
(`organizer.py` lines 493-499): six per-day values for each priority in
`{0..6}`, `none` for any other priority (a Python `KeyError`). -/
def base_multipliers (p : Int) : Option (List ℚ) :=
  if p = 0 then some [100000, 0, 0, 0, 0, 0]
  else if p = 1 then some [100, 50, 10, 10, 10, 10]
  else if p = 2 then some [50, 25, 5, 5, 5, 5]
  else if p = 3 then some [40, 20, 3, 3, 3, 3]
  else if p = 4 then some [30, 15, 2, 2, 2, 2]
  else if p = 5 then some [20, 10, 1, 1, 1, 1]
  else if p = 6 then some [10, 5, 1/2, 1/2, 1/2, 1/2]
  else none

/-- `SolverSchedule.define_values` (`organizer.py` lines 476-505): the
base table extended with ten copies of its last value
(`MULTIPLIERS[k] += [MULTIPLIERS[k][-1]] * 10`). -/
def define_values (p : Int) : Option (List ℚ) :=
  (base_multipliers p).map (fun l => l ++ List.replicate 10 (l.getLastD 0))

/-- The per-assignment value lookup of `SolverSchedule.define_objective`
(`organizer.py` line 515): `MULTIPLIERS[task.priority][slot.day]`;
`none` is a Python `KeyError` / `IndexError`. -/
def lookup_value (p : Int) (d : Nat) : Option ℚ :=
  (define_values p).bind (fun l => l.get? d)

/-- The noon heuristic of `SolverOrganizer.solve` (`organizer.py` lines
620-632), in minutes after midnight of the slot's day: the two
candidate starts are the slot start and the slot start shifted by the
spare capacity, and the one whose start is strictly closer to noon
(720) wins, ties going to the second. -/
def choose_start_noon (slot_start slot_end tasks_length : Int) : Int :=
  let proposal_start1 := slot_start
  let proposal_start2 := slot_start + ((slot_end - slot_start) - tasks_length)
  if |proposal_start1 - 720| < |proposal_start2 - 720| then proposal_start1
  else proposal_start2

/-- `SolverOrganizer._find_segment_position` (`organizer.py` lines
694-728), over `ℚ` because the source uses Python's true division. -/
def find_segment_position (a_hard b_hard a_soft b_soft d : ℚ) : ℚ :=
  let overlap_length := min b_hard b_soft - max a_hard a_soft
  let max_shift_right := b_hard - d
  if overlap_length ≤ 0 then (a_hard + b_hard) / 2
  else if d ≤ overlap_length then
    max a_hard (min max_shift_right ((a_soft + b_soft - d) / 2))
  else
    max a_hard (min max_shift_right (b_soft - overlap_length))

/-- A concrete 60-minute task, used on concrete inputs. -/
def task60 : Task := ⟨1, "t60", 3, "Not started", 0, 60, "Work"⟩

/-- A concrete 90-minute task, used on concrete inputs. -/
def task90 : Task := ⟨2, "t90", 3, "Not started", 0, 90, "Work"⟩

/-- A concrete one-hour work template (09:00-10:00). -/
def slot60 : Slot := ⟨1, "Work", 540, 600⟩

/-- A concrete day slot 11:40-13:10 on day 0 (90 soft minutes). -/
def c5_slot : DaySlot := ⟨0, ⟨1, "Work", 700, 790⟩, 1439, 0, 1439⟩

/-- A concrete day slot 09:00-17:00 on day 0 with full-day hard margins. -/
def wide_slot : DaySlot := ⟨0, ⟨1, "Work", 540, 1020⟩, 1439, 0, 1439⟩

/-- The day slot that one 09:00-17:00 template with one 05:00-06:40
user event produces (used as a concrete generator output). -/
def c8_slot : DaySlot := ⟨0, ⟨1, "Work", 540, 1020⟩, 1039, 400, 1439⟩

/-- A user-created calendar event (noon-13:00, no colour tag). -/
def user_ev : CalEvent := ⟨"dentist", "", 720, 780, none, 100⟩

/-- A task scheduled twenty days from now. -/
def far_te : TaskEvent := ⟨20 * 1440 + 600, 20 * 1440 + 660, task60⟩

/-- The calendar record that writing `far_te` into the calendar
`[user_ev]` produces. -/
def far_written : CalEvent :=
  ⟨"t60", "Estimated to last for 60", 20 * 1440 + 600, 20 * 1440 + 660, some "9", 1⟩

/-- The block-start computation of `SolverOrganizer.solve`
(`organizer.py` lines 601-648), in minutes after midnight of the slot's
day: the noon heuristic when the tasks fit in the soft slot, otherwise
the segment positioning inside the hard interval. -/
def organizer_start (ds : DaySlot) (tasks_length : Int) : ℚ :=
  let slot_length := compute_slots_minutes [ds.slot]
  if tasks_length ≤ slot_length then
    ((choose_start_noon ds.slot.start ds.slot.endT tasks_length : Int) : ℚ)
  else
    find_segment_position
      ((ds.hard_start_time - ds.day * 1440 : Int) : ℚ)
      ((ds.hard_end_time - ds.day * 1440 : Int) : ℚ)
      ((ds.slot.start : Int) : ℚ)
      ((ds.slot.endT : Int) : ℚ)
      ((tasks_length : Int) : ℚ)

/-! ## Theorems -/

/-- C1.  The claim says every event written by `set_event` carries a tag
that `filter_events` recognises as application-owned, so the filter
discards it.  The code refutes this: `set_event` tags with colour `'9'`
(`queries.py` line 121) while `filter_events` only discards colours
`'1'..'5'` (`APPLICATION_COLORS`), so the system's own events pass the
filter unchanged and do constrain scheduling. -/
theorem set_event_survives_filter_events (cal : List CalEvent)
    (summary description : String) (start endT : Int) :
    get_color_id (set_event_record summary description start endT cal.length) = "9" ∧
    APPLICATION_COLORS.contains "9" = false ∧
    filter_events (set_event cal summary description start endT) =
      filter_events cal ++ [set_event_record summary description start endT cal.length] := by
  refine ⟨rfl, rfl, ?_⟩
  unfold filter_events set_event set_event_record
  rw [List.filter_append]
  rfl

/-- Helper for C2: with zero capacity and positive demand, the
feasibility loop makes no progress whatever its fuel and starting day. -/
theorem estimate_days_loop_zero_cap (m : Int) (hm : 0 < m) :
    ∀ (fuel : Nat) (day : Int), estimate_days_loop 0 m fuel 0 day = none := by
  intro fuel
  induction fuel with
  | zero =>
      intro day
      simp [estimate_days_loop, hm]
  | succ n ih =>
      intro day
      simp only [estimate_days_loop, if_pos hm, add_zero]
      exact ih (day + 1)

/-- C2.  The claim (and the specification) say that an empty template
list with non-empty tasks fails with `NoCapacity`.  The code has no such
error: on that input `estimate_days_feasibility`'s `while` loop adds
zero capacity per iteration and never terminates (the fueled embedding
returns `none` for every fuel), so the function neither fails with
`NoCapacity` nor returns. -/
theorem estimate_days_feasibility_no_capacity_diverges :
    compute_slots_minutes ([] : List Slot) = 0 ∧
    0 < compute_tasks_minutes [task60] ∧
    ∀ fuel : Nat,
      estimate_days_loop (compute_slots_minutes ([] : List Slot))
        (compute_tasks_minutes [task60]) fuel
        (compute_slots_minutes ([] : List Slot)) 1 = none := by
  refine ⟨rfl, by decide, ?_⟩
  intro fuel
  exact estimate_days_loop_zero_cap (compute_tasks_minutes [task60]) (by decide) fuel 1

/-- C3.  The claim says an event covering a free interval entirely makes
the subtraction drop the interval.  The code refutes this: the left-clip
branch (`organizer.py` line 275) fires without checking that the event
ends before the interval does, so a covering event `[08:00, 12:00]`
leaves the degenerate, negative-length "free spot" `(12:00, 11:00)` of
the slot `[09:00, 11:00]` in the output instead of dropping it. -/
theorem find_free_spots_covering_event_not_dropped :
    find_free_spots ⟨1, "Work", 540, 660⟩ [(480, 720)] 0 = [(720, 660)] ∧
    ¬ (720 : Int) < 660 ∧
    find_free_spots ⟨1, "Work", 540, 660⟩ [(480, 720)] 0 ≠ [] := by
  refine ⟨rfl, by decide, by decide⟩

/-- C6 counterexample.  The claim says that with `overlap ≤ 0` the
segment position is the midpoint of the hard interval minus half the
segment length, clamped into the hard interval.  The code returns the
bare midpoint `(A + B) / 2`: at `A = 0, B = 100, a = 200, b = 300,
d = 80` it returns `50`, while the claimed value is
`max A (min (B - d) ((A + B) / 2 - d / 2)) = 10`, and the returned
segment `[50, 130]` even leaves the hard interval. -/
theorem find_segment_position_no_overlap_unclamped :
    find_segment_position 0 100 200 300 80 = 50 ∧
    max (0 : ℚ) (min (100 - 80) ((0 + 100) / 2 - 80 / 2)) = 10 ∧
    (50 : ℚ) ≠ 10 ∧
    ¬ ((50 : ℚ) + 80 ≤ 100) := by
  refine ⟨?_, by norm_num, by norm_num, by norm_num⟩
  norm_num [find_segment_position]

/-- C6 amended: when the hard interval and the soft sub-interval do not
overlap (`min B b - max A a ≤ 0`), `_find_segment_position` returns the
bare midpoint `(A + B) / 2` of the hard interval — with no `- d / 2`
shift and no clamping. -/
theorem find_segment_position_no_overlap_midpoint
    (a_hard b_hard a_soft b_soft d : ℚ)
    (h : min b_hard b_soft - max a_hard a_soft ≤ 0) :
    find_segment_position a_hard b_hard a_soft b_soft d =
      (a_hard + b_hard) / 2 := by
  unfold find_segment_position
  simp only [if_pos h]

/-- C6 witness: a concrete no-overlap instance. -/
theorem find_segment_position_no_overlap_midpoint_witness :
    min (10 : ℚ) 30 - max 0 20 ≤ 0 ∧
    find_segment_position 0 10 20 30 4 = (0 + 10) / 2 :=
  ⟨by norm_num,
   find_segment_position_no_overlap_midpoint 0 10 20 30 4 (by norm_num)⟩

/-- Helper: `List.get?` is defined exactly below the length. -/
theorem list_get?_isSome_iff (l : List ℚ) (d : Nat) :
    l[d]?.isSome ↔ d < l.length := by
  constructor
  · intro h
    by_contra hlt
    rw [List.getElem?_eq_none (by omega)] at h
    simp at h
  · intro h
    rw [List.getElem?_eq_getElem h]
    rfl

/-- C10.  The value lookup `MULTIPLIERS[priority][day]` used when the
objective is built is defined exactly for priorities `0..6` and day
indices `0..15` (the six-day base rows extended with ten flat-tail
copies): inside that rectangle the lookup is total, outside it the
Python code would raise (`none` in the embedding), in particular for any
slot with day index 16 or more. -/
theorem lookup_value_isSome_iff (p : Int) (d : Nat) :
    (lookup_value p d).isSome ↔ (0 ≤ p ∧ p ≤ 6 ∧ d ≤ 15) := by
  by_cases h0 : p = 0
  · subst h0
    simp only [lookup_value, define_values, base_multipliers]
    norm_num
    rw [list_get?_isSome_iff]
    simp
    omega
  · by_cases h1 : p = 1
    · subst h1
      simp only [lookup_value, define_values, base_multipliers]
      norm_num
      rw [list_get?_isSome_iff]
      simp
      omega
    · by_cases h2 : p = 2
      · subst h2
        simp only [lookup_value, define_values, base_multipliers]
        norm_num
        rw [list_get?_isSome_iff]
        simp
        omega
      · by_cases h3 : p = 3
        · subst h3
          simp only [lookup_value, define_values, base_multipliers]
          norm_num
          rw [list_get?_isSome_iff]
          simp
          omega
        · by_cases h4 : p = 4
          · subst h4
            simp only [lookup_value, define_values, base_multipliers]
            norm_num
            rw [list_get?_isSome_iff]
            simp
            omega
          · by_cases h5 : p = 5
            · subst h5
              simp only [lookup_value, define_values, base_multipliers]
              norm_num
              rw [list_get?_isSome_iff]
              simp
              omega
            · by_cases h6 : p = 6
              · subst h6
                simp only [lookup_value, define_values, base_multipliers]
                norm_num
                rw [list_get?_isSome_iff]
                simp
                omega
              · simp only [lookup_value, define_values, base_multipliers,
                  if_neg h0, if_neg h1, if_neg h2, if_neg h3, if_neg h4,
                  if_neg h5, if_neg h6, Option.map_none', Option.none_bind,
                  Option.isSome_none]
                constructor
                · intro h
                  exact absurd h (by simp)
                · intro h
                  omega

/-- Helper for C4: with a solver that never succeeds, the retry loop
makes no progress whatever its fuel and starting horizon. -/
theorem solve_problems_loop_always_infeasible :
    ∀ (fuel : Nat) (d : Int),
      solve_problems_loop always_infeasible fuel d = none := by
  intro fuel
  induction fuel with
  | zero => intro d; rfl
  | succ n ih =>
      intro d
      simp only [solve_problems_loop, always_infeasible, is_success]
      exact ih (d + 1)

/-- C4 counterexample.  The claim says the retry loop aborts with
`Infeasible` once the horizon exceeds a safety cap, hence terminates on
every input.  The code has no cap and no abort: with a solver oracle
that never reports `OPTIMAL` or `FEASIBLE`, the loop of
`solve_problems` runs forever (no amount of fuel makes the embedded
loop produce any outcome). -/
theorem solve_problems_no_safety_cap :
    solve_loop_diverges always_infeasible 1 :=
  fun fuel => solve_problems_loop_always_infeasible fuel 1

/-- C4 amended: the retry loop does enlarge the horizon by exactly one
day per attempt — whenever it returns, the returned horizon is the
first one at or after the initial horizon on which the solver reports
`OPTIMAL` or `FEASIBLE` — but it never aborts: on inputs where the
solver never succeeds it simply does not terminate (see the
counterexample). -/
theorem solve_problems_first_success (oracle : Int → CpStatus) (fuel : Nat) :
    ∀ (d0 d : Int), solve_problems_loop oracle fuel d0 = some d →
      is_success (oracle d) = true ∧ d0 ≤ d ∧
      ∀ e : Int, d0 ≤ e → e < d → is_success (oracle e) = false := by
  induction fuel with
  | zero => intro d0 d h; exact absurd h (by simp [solve_problems_loop])
  | succ n ih =>
      intro d0 d h
      simp only [solve_problems_loop] at h
      by_cases hs : is_success (oracle d0) = true
      · rw [if_pos hs] at h
        have hd : d0 = d := Option.some.inj h
        subst hd
        exact ⟨hs, le_refl _, fun e he1 he2 => absurd he2 (by omega)⟩
      · rw [if_neg (by simpa using hs)] at h
        obtain ⟨h1, h2, h3⟩ := ih (d0 + 1) d h
        refine ⟨h1, by omega, ?_⟩
        intro e he1 he2
        rcases eq_or_lt_of_le he1 with he | he
        · have hfalse : is_success (oracle d0) = false := by
            cases hb : is_success (oracle d0) with
            | false => rfl
            | true => exact absurd hb hs
          exact he ▸ hfalse
        · exact h3 e (by omega) he2

/-- C4 witness: with success exactly at horizon 2 and initial horizon 1,
the loop returns 2, the first success. -/
theorem solve_problems_first_success_witness :
    is_success (success_at_two 2) = true ∧ (1 : Int) ≤ 2 ∧
    ∀ e : Int, 1 ≤ e → e < 2 → is_success (success_at_two e) = false :=
  solve_problems_first_success success_at_two 5 1 2 (by decide)

/-- C5 counterexample.  The claim says the noon heuristic picks the
candidate whose *block midpoint* is nearer to noon.  The code compares
the candidate *starts* to noon (`organizer.py` line 629): on the day-0
slot 11:40-13:10 with a 60-minute block, the block midpoint of
candidate start 11:40 (=700) is 12:10, strictly nearer to noon than
candidate 12:10's midpoint 12:40, yet the code picks 12:10 (=730)
because the bare start 730 is nearer to noon than the bare start 700. -/
theorem noon_heuristic_compares_starts :
    organizer_start c5_slot 60 = 730 ∧
    |(700 + 60 / 2 : Int) - 720| < |(730 + 60 / 2 : Int) - 720| ∧
    organizer_start c5_slot 60 ≠ 700 := by
  refine ⟨?_, by decide, ?_⟩
  · norm_num [organizer_start, choose_start_noon, compute_slots_minutes,
      Slot.get_duration, c5_slot]
  · norm_num [organizer_start, choose_start_noon, compute_slots_minutes,
      Slot.get_duration, c5_slot]

/-- C5 amended: when the total task duration fits in the soft slot, the
placement start is one of the two candidates `slot.start` and
`slot.end - T`, and it is the candidate whose *start* (not block
midpoint) is nearest to noon, ties going to `slot.end - T`. -/
theorem organizer_start_nearest_start_to_noon (ds : DaySlot)
    (tasks_length : Int)
    (h : tasks_length ≤ ds.slot.endT - ds.slot.start) :
    organizer_start ds tasks_length =
      ((choose_start_noon ds.slot.start ds.slot.endT tasks_length : Int) : ℚ) ∧
    (choose_start_noon ds.slot.start ds.slot.endT tasks_length = ds.slot.start ∨
     choose_start_noon ds.slot.start ds.slot.endT tasks_length =
       ds.slot.endT - tasks_length) ∧
    |choose_start_noon ds.slot.start ds.slot.endT tasks_length - 720| ≤
      |ds.slot.start - 720| ∧
    |choose_start_noon ds.slot.start ds.slot.endT tasks_length - 720| ≤
      |ds.slot.endT - tasks_length - 720| := by
  have hL : compute_slots_minutes [ds.slot] = ds.slot.endT - ds.slot.start := by
    simp [compute_slots_minutes, Slot.get_duration]
  have hp2 : ds.slot.start + ((ds.slot.endT - ds.slot.start) - tasks_length) =
      ds.slot.endT - tasks_length := by ring
  refine ⟨?_, ?_⟩
  · simp only [organizer_start]
    rw [hL, if_pos h]
  · simp only [choose_start_noon]
    rw [hp2]
    by_cases hc : |ds.slot.start - 720| < |ds.slot.endT - tasks_length - 720|
    · rw [if_pos hc]
      exact ⟨Or.inl rfl, le_refl _, le_of_lt hc⟩
    · rw [if_neg hc]
      exact ⟨Or.inr rfl, not_lt.mp hc, le_refl _⟩

/-- C5 witness: the 09:00-17:00 day-0 slot with a 60-minute block. -/
theorem organizer_start_nearest_start_to_noon_witness :
    organizer_start wide_slot 60 = ((choose_start_noon 540 1020 60 : Int) : ℚ) ∧
    (choose_start_noon 540 1020 60 = 540 ∨
     choose_start_noon 540 1020 60 = 1020 - 60) ∧
    |choose_start_noon 540 1020 60 - 720| ≤ |(540 : Int) - 720| ∧
    |choose_start_noon 540 1020 60 - 720| ≤ |(1020 : Int) - 60 - 720| :=
  organizer_start_nearest_start_to_noon wide_slot 60 (by decide)

/-- Helper for C7: full correctness of the feasibility `while` loop.
If the capacity `c` is positive, the accumulated capacity is `day * c`,
every earlier day was insufficient, and the remaining fuel can still
cover the demand, then the loop returns the least sufficient day. -/
theorem estimate_days_loop_spec (c m : Int) (_hc : 1 ≤ c) :
    ∀ (fuel : Nat) (day : Int), 1 ≤ day →
      (∀ e : Int, 1 ≤ e → e < day → e * c < m) →
      m ≤ (fuel : Int) * c + day * c →
      ∃ dd : Int, estimate_days_loop c m fuel (day * c) day = some dd ∧
        1 ≤ dd ∧ m ≤ dd * c ∧
        ∀ e : Int, 1 ≤ e → m ≤ e * c → dd ≤ e := by
  intro fuel
  induction fuel with
  | zero =>
      intro day h1 hmin hfuel
      simp only [Nat.cast_zero, zero_mul, zero_add] at hfuel
      refine ⟨day, ?_, h1, hfuel, ?_⟩
      · simp [estimate_days_loop, not_lt.mpr hfuel]
      · intro e he1 he2
        by_contra hlt
        push_neg at hlt
        exact absurd he2 (not_le.mpr (hmin e he1 hlt))
  | succ n ih =>
      intro day h1 hmin hfuel
      by_cases hcond : day * c < m
      · have heq : estimate_days_loop c m (n + 1) (day * c) day =
            estimate_days_loop c m n ((day + 1) * c) (day + 1) := by
          simp only [estimate_days_loop, if_pos hcond]
          rw [show day * c + c = (day + 1) * c from by ring]
        rw [heq]
        refine ih (day + 1) (by omega) ?_ ?_
        · intro e he1 helt
          rcases lt_or_eq_of_le (show e ≤ day by omega) with hlt | heqd
          · exact hmin e he1 hlt
          · exact heqd ▸ hcond
        · push_cast at hfuel ⊢
          ring_nf at hfuel ⊢
          linarith
      · refine ⟨day, ?_, h1, not_lt.mp hcond, ?_⟩
        · simp [estimate_days_loop, hcond]
        · intro e he1 he2
          by_contra hlt
          push_neg at hlt
          exact absurd he2 (not_le.mpr (hmin e he1 hlt))

/-- C7.  With a non-empty template list of positive total capacity `c`,
`estimate_days_feasibility` terminates and returns the least positive
integer `D` with `D * c ≥` the total task demand (in particular `D = 1`
whenever the demand — possibly zero, e.g. for an empty task list — is
at most `c`). -/
theorem estimate_days_feasibility_least (slots : List Slot)
    (tasks : List Task) (h : 0 < compute_slots_minutes slots) :
    ∃ dd : Int, estimate_days_feasibility slots tasks = some dd ∧ 1 ≤ dd ∧
      compute_tasks_minutes tasks ≤ dd * compute_slots_minutes slots ∧
      ∀ e : Int, 1 ≤ e →
        compute_tasks_minutes tasks ≤ e * compute_slots_minutes slots →
        dd ≤ e := by
  have hc : 1 ≤ compute_slots_minutes slots := h
  have hfuel : compute_tasks_minutes tasks ≤
      ((compute_tasks_minutes tasks).toNat : Int) * compute_slots_minutes slots +
        1 * compute_slots_minutes slots := by
    have h1 : compute_tasks_minutes tasks ≤
        ((compute_tasks_minutes tasks).toNat : Int) := Int.self_le_toNat _
    have h2 : ((compute_tasks_minutes tasks).toNat : Int) ≤
        ((compute_tasks_minutes tasks).toNat : Int) * compute_slots_minutes slots :=
      le_mul_of_one_le_right (Int.natCast_nonneg _) hc
    linarith
  have hmain := estimate_days_loop_spec (compute_slots_minutes slots)
    (compute_tasks_minutes tasks) hc (compute_tasks_minutes tasks).toNat 1
    (le_refl 1) (fun e he1 he2 => by omega) hfuel
  rw [one_mul] at hmain
  exact hmain

/-- C7 witness: one 09:00-10:00 template (capacity 60) and one
90-minute task; the least sufficient horizon is well defined. -/
theorem estimate_days_feasibility_least_witness :
    ∃ dd : Int, estimate_days_feasibility [slot60] [task90] = some dd ∧
      1 ≤ dd ∧
      compute_tasks_minutes [task90] ≤ dd * compute_slots_minutes [slot60] ∧
      ∀ e : Int, 1 ≤ e →
        compute_tasks_minutes [task90] ≤ e * compute_slots_minutes [slot60] →
        dd ≤ e :=
  estimate_days_feasibility_least [slot60] [task90] (by decide)

/-- Helper for C8: a nonempty piece left by subtracting a well-formed
event from an interval lies inside the interval, which is then itself
nonempty. -/
theorem subtract_pieces_sub (ev i c : Int × Int) (hev : ev.1 < ev.2)
    (hc : c ∈ subtract_pieces ev i) (hne : c.1 < c.2) :
    i.1 ≤ c.1 ∧ c.2 ≤ i.2 ∧ i.1 < i.2 := by
  obtain ⟨es, ee⟩ := ev
  obtain ⟨is0, ie⟩ := i
  obtain ⟨cs, ce⟩ := c
  simp only [subtract_pieces] at hc
  simp only at hev hne ⊢
  split_ifs at hc with h1 h2 h3
  · simp only [List.mem_singleton, Prod.mk.injEq] at hc
    obtain ⟨rfl, rfl⟩ := hc
    refine ⟨by omega, by omega, by omega⟩
  · simp only [List.mem_singleton, Prod.mk.injEq] at hc
    obtain ⟨rfl, rfl⟩ := hc
    refine ⟨by omega, by omega, by omega⟩
  · simp only [List.mem_cons, List.mem_singleton, Prod.mk.injEq,
      List.not_mem_nil, or_false] at hc
    rcases hc with ⟨rfl, rfl⟩ | ⟨rfl, rfl⟩
    · refine ⟨by omega, by omega, by omega⟩
    · refine ⟨by omega, by omega, by omega⟩
  · simp only [List.mem_singleton, Prod.mk.injEq] at hc
    obtain ⟨rfl, rfl⟩ := hc
    refine ⟨by omega, by omega, by omega⟩

/-- Helper for C8: the event-subtraction fold keeps every nonempty
interval inside the bounds its seed intervals satisfied. -/
theorem subtract_fold_bounds (s0 e0 : Int) :
    ∀ (events : List (Int × Int)), (∀ ev ∈ events, ev.1 < ev.2) →
      ∀ (acc : List (Int × Int)),
        (∀ i ∈ acc, i.1 < i.2 → s0 ≤ i.1 ∧ i.2 ≤ e0) →
        ∀ sp ∈ events.foldl
            (fun available_intervals ev =>
              available_intervals.flatMap (subtract_pieces ev)) acc,
          sp.1 < sp.2 → s0 ≤ sp.1 ∧ sp.2 ≤ e0 := by
  intro events
  induction events with
  | nil =>
      intro _ acc hacc sp hsp hne
      exact hacc sp hsp hne
  | cons ev evs ih =>
      intro hev acc hacc sp hsp hne
      rw [List.foldl_cons] at hsp
      refine ih (fun e he => hev e (List.mem_cons_of_mem _ he)) _ ?_ sp hsp hne
      intro i hi hine
      rw [List.mem_flatMap] at hi
      obtain ⟨p, hp, hip⟩ := hi
      have hsub := subtract_pieces_sub ev p i (hev ev (List.mem_cons_self _ _)) hip hine
      have hpar := hacc p hp hsub.2.2
      exact ⟨le_trans hpar.1 hsub.1, le_trans hsub.2.1 hpar.2⟩

/-- Helper for C8: every nonempty free spot of a slot lies inside the
slot's absolute interval on its day. -/
theorem find_free_spots_in_bounds (slot : Slot) (events : List (Int × Int))
    (day : Int) (hev : ∀ ev ∈ events, ev.1 < ev.2) :
    ∀ sp ∈ find_free_spots slot events day, sp.1 < sp.2 →
      day * 1440 + slot.start ≤ sp.1 ∧ sp.2 ≤ day * 1440 + slot.endT := by
  intro sp hsp hne
  unfold find_free_spots at hsp
  refine subtract_fold_bounds (day * 1440 + slot.start) (day * 1440 + slot.endT)
    events hev _ ?_ sp hsp hne
  intro i hi _
  rw [List.mem_singleton] at hi
  subst hi
  exact ⟨le_refl _, le_refl _⟩

/-- Helper for C8: the previous-event fold only ever returns an event
ending at or before the bound. -/
theorem pick_prev_aux (bound : Int) :
    ∀ (evs : List (Int × Int)) (acc : Option (Int × Int)),
      (∀ q, acc = some q → q.2 ≤ bound) →
      ∀ q, evs.foldl
          (fun p ev =>
            if ev.2 ≤ bound then
              match p with
              | none => some ev
              | some q => if q.2 < ev.2 then some ev else some q
            else p) acc = some q → q.2 ≤ bound := by
  intro evs
  induction evs with
  | nil => intro acc hacc q hq; exact hacc q hq
  | cons ev evs ih =>
      intro acc hacc q hq
      rw [List.foldl_cons] at hq
      refine ih _ ?_ q hq
      intro q' hq'
      by_cases h : ev.2 ≤ bound
      · rw [if_pos h] at hq'
        cases acc with
        | none =>
            have h3 : some ev = some q' := hq'
            exact (Option.some.inj h3) ▸ h
        | some q0 =>
            have h3 : (if q0.2 < ev.2 then some ev else some q0) = some q' := hq'
            by_cases h2 : q0.2 < ev.2
            · rw [if_pos h2] at h3
              exact (Option.some.inj h3) ▸ h
            · rw [if_neg h2] at h3
              exact (Option.some.inj h3) ▸ hacc q0 rfl
      · rw [if_neg h] at hq'
        exact hacc q' hq'

/-- Helper for C8: a previous event returned by `compute_margins`' first
fold ends at or before the slot start. -/
theorem pick_previous_event_le (bound : Int) (events : List (Int × Int))
    (q : Int × Int) (hq : pick_previous_event bound events = some q) :
    q.2 ≤ bound := by
  unfold pick_previous_event at hq
  exact pick_prev_aux bound events none (fun q' h => Option.noConfusion h) q hq

/-- Helper for C8: the next-event fold only ever returns an event
starting at or after the bound. -/
theorem pick_next_aux (bound : Int) :
    ∀ (evs : List (Int × Int)) (acc : Option (Int × Int)),
      (∀ q, acc = some q → bound ≤ q.1) →
      ∀ q, evs.foldl
          (fun p ev =>
            if bound ≤ ev.1 then
              match p with
              | none => some ev
              | some q => if ev.1 < q.1 then some ev else some q
            else p) acc = some q → bound ≤ q.1 := by
  intro evs
  induction evs with
  | nil => intro acc hacc q hq; exact hacc q hq
  | cons ev evs ih =>
      intro acc hacc q hq
      rw [List.foldl_cons] at hq
      refine ih _ ?_ q hq
      intro q' hq'
      by_cases h : bound ≤ ev.1
      · rw [if_pos h] at hq'
        cases acc with
        | none =>
            have h3 : some ev = some q' := hq'
            exact (Option.some.inj h3) ▸ h
        | some q0 =>
            have h3 : (if ev.1 < q0.1 then some ev else some q0) = some q' := hq'
            by_cases h2 : ev.1 < q0.1
            · rw [if_pos h2] at h3
              exact (Option.some.inj h3) ▸ h
            · rw [if_neg h2] at h3
              exact (Option.some.inj h3) ▸ hacc q0 rfl
      · rw [if_neg h] at hq'
        exact hacc q' hq'

/-- Helper for C8: a next event returned by `compute_margins`' second
fold starts at or after the slot end. -/
theorem pick_next_event_ge (bound : Int) (events : List (Int × Int))
    (q : Int × Int) (hq : pick_next_event bound events = some q) :
    bound ≤ q.1 := by
  unfold pick_next_event at hq
  exact pick_next_aux bound events none (fun q' h => Option.noConfusion h) q hq

/-- Helper for C8: both margins are nonnegative whenever the slot's
times of day are in range. -/
theorem compute_margins_nonneg (slot : Slot) (events : List (Int × Int))
    (day : Int) (hs : 0 ≤ slot.start) (he : slot.endT ≤ 1439) :
    0 ≤ (compute_margins slot events day).1 ∧
    0 ≤ (compute_margins slot events day).2 := by
  have hfst : (compute_margins slot events day).1 =
      (match pick_previous_event (day * 1440 + slot.start) events with
       | none => (day * 1440 + slot.start) - day * 1440
       | some q => (day * 1440 + slot.start) - q.2) := rfl
  have hsnd : (compute_margins slot events day).2 =
      (match pick_next_event (day * 1440 + slot.endT) events with
       | none => (day * 1440 + 1439) - (day * 1440 + slot.endT)
       | some q => q.1 - (day * 1440 + slot.endT)) := rfl
  constructor
  · rw [hfst]
    cases hp : pick_previous_event (day * 1440 + slot.start) events with
    | none =>
        show 0 ≤ day * 1440 + slot.start - day * 1440
        omega
    | some q =>
        have hq := pick_previous_event_le (day * 1440 + slot.start) events q hp
        show 0 ≤ day * 1440 + slot.start - q.2
        omega
  · rw [hsnd]
    cases hn : pick_next_event (day * 1440 + slot.endT) events with
    | none =>
        show 0 ≤ day * 1440 + 1439 - (day * 1440 + slot.endT)
        omega
    | some q =>
        have hq := pick_next_event_ge (day * 1440 + slot.endT) events q hn
        show 0 ≤ q.1 - (day * 1440 + slot.endT)
        omega

/-- C8 counterexample.  The claim says every emitted `DaySlot` satisfies
`hard-start ≤ concrete-start < concrete-end ≤ hard-end`.  The generator
refutes this: a user event 08:00-18:00 covering the 09:00-17:00
template makes `find_free_spots` emit the degenerate spot
`(18:00, 17:00)` (see C3), and `generate_days_slots` turns it into a
`DaySlot` whose concrete start 18:00 is *after* its concrete end
17:00. -/
theorem generate_days_slots_degenerate_slot :
    generate_days_slots [⟨1, "Work", 540, 1020⟩] [(480, 1080)] 1 0 =
      [⟨0, ⟨1, "Work", 1080, 1020⟩, 359, 1080, 1439⟩] ∧
    ¬ ((1080 : Int) < 1020) := by
  exact ⟨rfl, by decide⟩

/-- C8 amended: every `DaySlot` the generator emits is the emission of
some free spot of some template on some day, and whenever that spot is
nonempty (which a covering fixed event can violate, see the
counterexample) the claimed invariants all hold: hard-start ≤
concrete-start < concrete-end ≤ hard-end, and hard-length =
hard-end − hard-start = concrete duration + margin-low + margin-high
with the margins computed by `compute_margins` (distance to the
previous event's end, or day start, and to the next event's start, or
23:59). -/
theorem generate_days_slots_invariants (slots : List Slot)
    (events : List (Int × Int)) (days : Nat) (now_t : Int) (ds : DaySlot)
    (hev : ∀ ev ∈ events, ev.1 < ev.2)
    (hsl : ∀ s ∈ slots, 0 ≤ s.start ∧ s.endT ≤ 1439)
    (hnow : 0 ≤ now_t)
    (hmem : ds ∈ generate_days_slots slots events days now_t) :
    ∃ (day sid : Int) (spot : Int × Int),
      0 ≤ day ∧
      ds = make_day_slot events day sid spot ∧
      (spot.1 < spot.2 →
        ds.hard_start_time ≤ day * 1440 + ds.slot.start ∧
        day * 1440 + ds.slot.start < day * 1440 + ds.slot.endT ∧
        day * 1440 + ds.slot.endT ≤ ds.hard_end_time ∧
        ds.hard_length = ds.hard_end_time - ds.hard_start_time ∧
        ds.hard_length = (ds.slot.endT - ds.slot.start) +
          (compute_margins ds.slot events day).1 +
          (compute_margins ds.slot events day).2 ∧
        ds.day = day) := by
  unfold generate_days_slots at hmem
  rw [List.mem_flatMap] at hmem
  obtain ⟨day, hdaymem, hmem⟩ := hmem
  unfold slots_for_day at hmem
  rw [List.mem_flatMap] at hmem
  obtain ⟨slot, hslotmem, hmem⟩ := hmem
  by_cases hskip : day = 0 ∧ slot.endT < now_t
  · rw [if_pos hskip] at hmem
    exact absurd hmem (List.not_mem_nil ds)
  · rw [if_neg hskip] at hmem
    rw [List.mem_map] at hmem
    obtain ⟨spot, hspotmem, hds⟩ := hmem
    subst hds
    refine ⟨(day : Int), slot.id, spot, Int.natCast_nonneg day, rfl, ?_⟩
    intro hne
    have hbounds := find_free_spots_in_bounds
      ⟨slot.id, "Work",
        if day = 0 ∧ slot.start < now_t then now_t else slot.start,
        slot.endT⟩ events (day : Int) hev spot hspotmem hne
    obtain ⟨hsl1, hsl2⟩ := hsl slot hslotmem
    have hlow : (day : Int) * 1440 ≤ spot.1 := by
      have hstart : (0 : Int) ≤
          (if day = 0 ∧ slot.start < now_t then now_t else slot.start) := by
        split_ifs
        · exact hnow
        · exact hsl1
      have := hbounds.1
      simp only at this
      omega
    have hhigh : spot.2 ≤ (day : Int) * 1440 + 1439 := by
      have := hbounds.2
      simp only at this
      omega
    have ht1 : time_of_day spot.1 = spot.1 - (day : Int) * 1440 := by
      unfold time_of_day
      omega
    have ht2 : time_of_day spot.2 = spot.2 - (day : Int) * 1440 := by
      unfold time_of_day
      omega
    have hfield_start :
        (make_day_slot events (day : Int) slot.id spot).slot.start =
          time_of_day spot.1 := rfl
    have hfield_end :
        (make_day_slot events (day : Int) slot.id spot).slot.endT =
          time_of_day spot.2 := rfl
    have hfield_slot :
        (make_day_slot events (day : Int) slot.id spot).slot =
          ⟨slot.id, "Work", time_of_day spot.1, time_of_day spot.2⟩ := rfl
    have hfield_hs :
        (make_day_slot events (day : Int) slot.id spot).hard_start_time =
          spot.1 - (compute_margins
            ⟨slot.id, "Work", time_of_day spot.1, time_of_day spot.2⟩
            events (day : Int)).1 := rfl
    have hfield_he :
        (make_day_slot events (day : Int) slot.id spot).hard_end_time =
          spot.2 + (compute_margins
            ⟨slot.id, "Work", time_of_day spot.1, time_of_day spot.2⟩
            events (day : Int)).2 := rfl
    have hfield_hl :
        (make_day_slot events (day : Int) slot.id spot).hard_length =
          (time_of_day spot.2 - time_of_day spot.1) +
            (compute_margins
              ⟨slot.id, "Work", time_of_day spot.1, time_of_day spot.2⟩
              events (day : Int)).2 +
            (compute_margins
              ⟨slot.id, "Work", time_of_day spot.1, time_of_day spot.2⟩
              events (day : Int)).1 := rfl
    have hfield_day :
        (make_day_slot events (day : Int) slot.id spot).day = (day : Int) := rfl
    have hmarg := compute_margins_nonneg
      ⟨slot.id, "Work", time_of_day spot.1, time_of_day spot.2⟩
      events (day : Int)
      (by show (0 : Int) ≤ time_of_day spot.1; rw [ht1]; omega)
      (by show time_of_day spot.2 ≤ (1439 : Int); rw [ht2]; omega)
    obtain ⟨hm1, hm2⟩ := hmarg
    rw [hfield_slot, hfield_hs, hfield_he, hfield_hl, hfield_day]
    dsimp only
    refine ⟨by omega, by omega, by omega, by omega, by omega, by omega⟩

/-- C8 witness: one 09:00-17:00 template and one 05:00-06:40 user event
produce `c8_slot`, whose underlying spot is nonempty, so all the
invariants evaluate and hold. -/
theorem generate_days_slots_invariants_witness :
    ∃ (day sid : Int) (spot : Int × Int),
      0 ≤ day ∧
      c8_slot = make_day_slot [(300, 400)] day sid spot ∧
      (spot.1 < spot.2 →
        c8_slot.hard_start_time ≤ day * 1440 + c8_slot.slot.start ∧
        day * 1440 + c8_slot.slot.start < day * 1440 + c8_slot.slot.endT ∧
        day * 1440 + c8_slot.slot.endT ≤ c8_slot.hard_end_time ∧
        c8_slot.hard_length = c8_slot.hard_end_time - c8_slot.hard_start_time ∧
        c8_slot.hard_length = (c8_slot.slot.endT - c8_slot.slot.start) +
          (compute_margins c8_slot.slot [(300, 400)] day).1 +
          (compute_margins c8_slot.slot [(300, 400)] day).2 ∧
        c8_slot.day = day) :=
  generate_days_slots_invariants [⟨1, "Work", 540, 1020⟩] [(300, 400)] 1 0
    c8_slot (by decide) (by decide) (by decide) (by decide)

/-- Helper for C9: deleting never touches a user-owned event. -/
theorem user_owned_delete_events (now : Int) (cal : List CalEvent) :
    user_owned_events (delete_events now cal) = user_owned_events cal := by
  unfold user_owned_events delete_events
  rw [List.filter_filter]
  apply List.filter_congr
  intro e _
  by_cases h9 : get_color_id e = "9"
  · simp [h9]
  · simp [h9]

/-- Helper for C9: writing one (always-tagged) event does not change the
user-owned part of the calendar. -/
theorem user_owned_set_event (cal : List CalEvent) (su de : String)
    (s e : Int) :
    user_owned_events (set_event cal su de s e) = user_owned_events cal := by
  unfold user_owned_events set_event
  rw [List.filter_append]
  simp [get_color_id]

/-- Helper for C9: writing any batch of task events does not change the
user-owned part of the calendar. -/
theorem user_owned_set_in_calendar (cal : List CalEvent)
    (tes : List TaskEvent) :
    user_owned_events (set_in_calendar cal tes) = user_owned_events cal := by
  induction tes generalizing cal with
  | nil => rfl
  | cons te tes ih =>
      have h1 : set_in_calendar cal (te :: tes) =
          set_in_calendar
            (set_event cal te.task.name
              ("Estimated to last for " ++ toString te.task.estimated_time)
              te.start te.endT) tes := rfl
      rw [h1, ih, user_owned_set_event]

/-- C9 counterexample.  The claim says erase deletes exactly the
tagged events.  But `delete_events` only enumerates the upcoming events
of the next 10 days (`get_next_events`'s default), so a tagged event
written 20 days out survives the erase: writing `far_te` and erasing
deletes nothing at all, leaving the application-tagged `far_written` in
the calendar. -/
theorem delete_events_misses_far_tagged :
    set_in_calendar [user_ev] [far_te] = [user_ev, far_written] ∧
    get_color_id far_written = "9" ∧
    delete_events 0 (set_in_calendar [user_ev] [far_te]) =
      [user_ev, far_written] := by
  refine ⟨rfl, rfl, by decide⟩

/-- C9 amended: after writing any batch of task events, erase (1)
leaves the user-owned events exactly as they were before the write
(the round trip holds), (2) deletes only application-tagged events, and
(3) keeps a tagged event only when it lies outside the erase window
(the upcoming 10 days) — so the deletion is exact only within that
window. -/
theorem delete_events_round_trip (now : Int) (cal : List CalEvent)
    (tes : List TaskEvent) :
    user_owned_events (delete_events now (set_in_calendar cal tes)) =
      user_owned_events cal ∧
    (∀ e ∈ set_in_calendar cal tes,
      e ∉ delete_events now (set_in_calendar cal tes) →
      get_color_id e = "9") ∧
    (∀ e ∈ delete_events now (set_in_calendar cal tes),
      get_color_id e = "9" →
      ¬ (now ≤ e.start ∧ e.start ≤ now + 10 * 1440)) := by
  refine ⟨?_, ?_, ?_⟩
  · rw [user_owned_delete_events, user_owned_set_in_calendar]
  · intro e he hne
    by_contra h9
    apply hne
    unfold delete_events
    rw [List.mem_filter]
    refine ⟨he, ?_⟩
    simp [h9]
  · intro e he h9 hwin
    unfold delete_events at he
    rw [List.mem_filter] at he
    have hp := he.2
    simp [h9, hwin.1, hwin.2] at hp
    omega

/-- C9 witness: the concrete calendar with one user event and one far
write. -/
theorem delete_events_round_trip_witness :
    user_owned_events (delete_events 0 (set_in_calendar [user_ev] [far_te])) =
      user_owned_events [user_ev] ∧
    (∀ e ∈ set_in_calendar [user_ev] [far_te],
      e ∉ delete_events 0 (set_in_calendar [user_ev] [far_te]) →
      get_color_id e = "9") ∧
    (∀ e ∈ delete_events 0 (set_in_calendar [user_ev] [far_te]),
      get_color_id e = "9" →
      ¬ ((0 : Int) ≤ e.start ∧ e.start ≤ 0 + 10 * 1440)) :=
  delete_events_round_trip 0 [user_ev] [far_te]

end Organizer
